import Mathlib

/-!
Verification of the Polymarket top-holders analysis pipeline.

This file gives a shallow embedding of the two Python modules
`polymarket_holders_detailed.py` (top-level definitions) and
`streamlit_app.py` (namespace `App`), and proves properties of the
holder-enrichment pipeline, the all-time-P&L fallback resolver, the
profile-page scrape extraction, the NO-side selection rule and the
aggregation statistics.

Modelling conventions:
* Python floats are modelled as exact rationals `ℚ` (the spec treats the
  arithmetic exactly).
* JSON values returned by the HTTP sources are modelled by the inductive
  `JVal`; dictionary access `d.get(k, default)` becomes an association-list
  lookup with a default.
* Code that can raise a Python exception is embedded in `Except PyErr`;
  a `try/except` block of the source becomes a `match` on that result.
* Each network call is replaced by its recorded outcome (an environment
  value), covering success, non-200 statuses, malformed JSON and network
  failure, so that the error-handling paths of the source are part of the
  embedding.
* The `re` patterns of the source are compiled by hand into character-level
  matchers with the exact leftmost-match / greedy / lazy semantics of the
  concrete patterns used (documented at each definition).
-/

/-! ## Python-semantics helpers -/

/-- Characters matched by the regex class `\s` (ASCII part, which is all the
source's inputs use). -/
def isPySpace (c : Char) : Bool :=
  c = ' ' || c = '\t' || c = '\n' || c = '\r' || c = '\x0b' || c = '\x0c'

/-- The two sign markers recognized by the source: ASCII minus and the
Unicode minus sign U+2212. -/
def isMinusChar (c : Char) : Bool :=
  c = '-' || c = '−'

/-- Digit or comma, the character class `[\d,]` of the amount patterns. -/
def isDigitComma (c : Char) : Bool :=
  c.isDigit || c = ','

/-- Value of a (possibly empty) string of decimal digits. -/
def digitsToNat (ds : List Char) : Nat :=
  ds.foldl (fun a c => a * 10 + (c.toNat - 48)) 0

/-- True when `pre` is a prefix of `cs`. -/
def leadsWith : List Char → List Char → Bool
  | [], _ => true
  | _ :: _, [] => false
  | a :: as, b :: bs => a = b && leadsWith as bs

/-- Python's `needle in hay` substring test. -/
def containsSub (needle : List Char) : List Char → Bool
  | [] => leadsWith needle []
  | c :: rest => leadsWith needle (c :: rest) || containsSub needle rest

/-- Split at the first occurrence of `needle`: the text before it and the text
after it.  `none` when `needle` does not occur. -/
def splitFirst (needle : List Char) : List Char → Option (List Char × List Char)
  | [] => if needle.isEmpty then some ([], []) else none
  | c :: rest =>
    if leadsWith needle (c :: rest) then some ([], (c :: rest).drop needle.length)
    else (splitFirst needle rest).map (fun p => (c :: p.1, p.2))

/-- Everything after the first occurrence of `needle`. -/
def afterFirst (needle : List Char) (hay : List Char) : Option (List Char) :=
  (splitFirst needle hay).map (fun p => p.2)

/-- Numeric value of a matched amount string: commas are removed
(`.replace(',', '')`) and the result read as a decimal number, exactly what
`float(...)` does on the shapes the amount patterns can capture
(`digits-and-commas`, optionally followed by `.` and digits). -/
def amountVal (s : String) : ℚ :=
  let ds := s.data.filter (fun c => c ≠ ',')
  match splitFirst ['.'] ds with
  | some p => (digitsToNat p.1 : ℚ) + (digitsToNat p.2 : ℚ) / 10 ^ p.2.length
  | none => (digitsToNat ds : ℚ)

/-- Python's `float(str)` on its common numeric forms: optional surrounding
whitespace, optional sign, digits with an optional fractional part, optional
decimal exponent.  Exotic inputs (`inf`, `nan`, underscores) are outside the
model; on every non-numeric string the result is `none`, which the embedding
maps to a `ValueError`. -/
def pyStrToRat (s : String) : Option ℚ :=
  let cs := (s.data.dropWhile isPySpace).reverse.dropWhile isPySpace |>.reverse
  let signed : Bool × List Char :=
    match cs with
    | '-' :: r => (true, r)
    | '+' :: r => (false, r)
    | _ => (false, cs)
  let ip := signed.2.takeWhile Char.isDigit
  let rest1 := signed.2.drop ip.length
  let fracRest : List Char × List Char :=
    match rest1 with
    | '.' :: r => (r.takeWhile Char.isDigit, r.drop (r.takeWhile Char.isDigit).length)
    | _ => ([], rest1)
  if ip.isEmpty && fracRest.1.isEmpty then none
  else
    let mant : ℚ := (digitsToNat ip : ℚ) + (digitsToNat fracRest.1 : ℚ) / 10 ^ fracRest.1.length
    let expPart : Option ℚ :=
      match fracRest.2 with
      | [] => some 1
      | c :: r =>
        if c = 'e' || c = 'E' then
          let esigned : Bool × List Char :=
            match r with
            | '-' :: rr => (true, rr)
            | '+' :: rr => (false, rr)
            | _ => (false, r)
          let eds := esigned.2.takeWhile Char.isDigit
          if eds.isEmpty || !(esigned.2.drop eds.length).isEmpty then none
          else if esigned.1 then some (1 / 10 ^ digitsToNat eds)
          else some ((10 : ℚ) ^ digitsToNat eds)
        else none
    match expPart with
    | none => none
    | some e => some ((if signed.1 then -mant else mant) * e)

/-- Python's `int()` applied to a float: truncation toward zero. -/
def pyInt (q : ℚ) : ℤ :=
  if q < 0 then ⌈q⌉ else ⌊q⌋

/-! ## Profile-page scrape: pattern 1

Regex `Profit/Loss[^$]*?([−\-])?\s*\$\s*([\d,]+\.[\d]{2})` compiled by
hand.  `re.search` tries start positions left to right, so the literal
`Profit/Loss` is matched at each of its occurrences in order; after it the
lazy `[^$]*?` advances one non-`$` character at a time (it can never step
over a `$`), and at each stop the tail `([−-])?\s*\$\s*amount` is attempted,
the optional sign group being tried greedily first. -/

/-- The `Profit/Loss` label. -/
def profitLabel : List Char := "Profit/Loss".data

/-- Amount matcher `([\d,]+\.[\d]{2})` anchored at the current position:
a maximal nonempty run of digits/commas, a dot and two digits (backtracking
inside the run cannot help, because a shorter run would have to be followed
by a digit or comma where the dot is required). -/
def matchAmount (cs : List Char) : Option String :=
  let run := cs.takeWhile isDigitComma
  if run.isEmpty then none
  else
    match cs.drop run.length with
    | '.' :: d1 :: d2 :: _ =>
      if d1.isDigit && d2.isDigit then some ⟨run ++ '.' :: [d1, d2]⟩ else none
    | _ => none

/-- Tail `\s*\$\s*([\d,]+\.[\d]{2})` anchored at the current position.  The
greedy `\s*` runs need no backtracking: giving back a space would leave a
space where `$` (resp. a digit or comma) is required. -/
def dollarAmount (cs : List Char) : Option String :=
  match cs.dropWhile isPySpace with
  | c :: r => if c = '$' then matchAmount (r.dropWhile isPySpace) else none
  | [] => none

/-- Tail `([−\-])?\s*\$\s*amount` anchored at the current position; the
optional sign group is greedy (tried first). -/
def signDollarAmount (cs : List Char) : Option (Option Char × String) :=
  (match cs with
   | c :: rest =>
     if isMinusChar c then (dollarAmount rest).map (fun a => (some c, a)) else none
   | [] => none) <|>
  (dollarAmount cs).map (fun a => ((none : Option Char), a))

/-- Lazy `[^$]*?` scan after a `Profit/Loss` label: attempt the tail at each
position, stepping only over non-`$` characters; a failed attempt at a `$`
ends this occurrence (the lazy class cannot consume the `$`). -/
def scanPat1 : List Char → Option (Option Char × String)
  | [] => none
  | c :: rest =>
    match signDollarAmount (c :: rest) with
    | some r => some r
    | none => if c = '$' then none else scanPat1 rest

/-- Full leftmost search for pattern 1: try every occurrence of the
`Profit/Loss` literal in order. -/
def pat1Search : List Char → Option (Option Char × String)
  | [] => none
  | c :: rest =>
    match (if leadsWith profitLabel (c :: rest) then
             scanPat1 ((c :: rest).drop profitLabel.length)
           else none) with
    | some r => some r
    | none => pat1Search rest

/-! ## Profile-page scrape: patterns 2 and 3

Regexes `data-pnl\s*=\s*["\']+([−\-]?[\d,]+\.?\d*)["\']` and
`data-profit[-_]?loss\s*=\s*["\']+([−\-]?[\d,]+\.?\d*)["\']`. -/

/-- Quote characters of the class `["\']`. -/
def isQuote (c : Char) : Bool := c = '"' || c = '\''

/-- Number group `([−\-]?[\d,]+\.?\d*)` followed by one quote, anchored
at the current position.  All subparts are greedy; backtracking cannot help
(shrinking any greedy run exposes a character of the same class where a
quote is required), so the maximal-munch reading is exact. -/
def numGroupQuoted (cs : List Char) : Option String :=
  let signed : List Char × List Char :=
    match cs with
    | c :: r => if isMinusChar c then ([c], r) else ([], cs)
    | [] => ([], cs)
  let run := signed.2.takeWhile isDigitComma
  if run.isEmpty then none
  else
    match signed.2.drop run.length with
    | '.' :: r2 =>
      let ds := r2.takeWhile Char.isDigit
      match r2.drop ds.length with
      | q :: _ => if isQuote q then some ⟨signed.1 ++ run ++ '.' :: ds⟩ else none
      | [] => none
    | q :: _ => if isQuote q then some ⟨signed.1 ++ run⟩ else none
    | [] => none

/-- Consume a literal, or fail. -/
def eatLit (lit : List Char) (cs : List Char) : Option (List Char) :=
  if leadsWith lit cs then some (cs.drop lit.length) else none

/-- Tail `\s*=\s*["\']+group` shared by patterns 2 and 3 (the quote run is
greedy and maximal; a shorter run would put a quote where the sign/digit of
the group is required). -/
def attrValueTail (cs : List Char) : Option String := do
  let r1 := cs.dropWhile isPySpace
  let r2 ← match r1 with
           | '=' :: t => some t
           | _ => none
  let r3 := r2.dropWhile isPySpace
  let quotes := r3.takeWhile isQuote
  if quotes.isEmpty then none else numGroupQuoted (r3.drop quotes.length)

/-- Pattern 2 anchored at the current position. -/
def tryPat2At (cs : List Char) : Option String := do
  let r ← eatLit "data-pnl".data cs
  attrValueTail r

/-- Pattern 3 anchored at the current position; `[-_]?` is the optional
separator between `profit` and `loss`. -/
def tryPat3At (cs : List Char) : Option String := do
  let r1 ← eatLit "data-profit".data cs
  let r1b := match r1 with
             | c :: t => if c = '-' || c = '_' then t else r1
             | [] => r1
  let r2 ← eatLit "loss".data r1b
  attrValueTail r2

/-- Leftmost search for pattern 2. -/
def searchPat2 : List Char → Option String
  | [] => none
  | c :: rest =>
    match tryPat2At (c :: rest) with
    | some s => some s
    | none => searchPat2 rest

/-- Leftmost search for pattern 3. -/
def searchPat3 : List Char → Option String
  | [] => none
  | c :: rest =>
    match tryPat3At (c :: rest) with
    | some s => some s
    | none => searchPat3 rest

/-- Handler for the one-group patterns: a leading minus of either convention
is stripped (`lstrip('−-')`) and negates the value. -/
def oneGroupHandler (s : String) : ℚ :=
  match s.data with
  | c :: _ =>
    if isMinusChar c then -(amountVal ⟨s.data.dropWhile isMinusChar⟩) else amountVal s
  | [] => amountVal s

/-! ## Profile-page scrape: strategy 2 (context after the label) -/

/-- Leftmost search for `\$\s*([\d,]+\.[\d]{2})`: the pattern starts with a
literal `$`, so every `$` position is tried in order. -/
def searchDollarAmount : List Char → Option String
  | [] => none
  | '$' :: rest =>
    match matchAmount (rest.dropWhile isPySpace) with
    | some a => some a
    | none => searchDollarAmount rest
  | _ :: rest => searchDollarAmount rest

/-- Existence test for `-\s*\$` (ASCII minus only, as in the source). -/
def minusDollar : List Char → Bool
  | [] => false
  | '-' :: rest =>
    (match rest.dropWhile isPySpace with
     | '$' :: _ => true
     | _ => minusDollar rest)
  | _ :: rest => minusDollar rest

/-- Negative-styling tokens checked by `polymarket_holders_detailed.py`. -/
def negClassesDetailed : List String :=
  ["text-red", "text-danger", "negative", "loss", "text-destructive",
   "minus", "color-red", "red"]

/-- Negative-styling tokens checked by `streamlit_app.py`. -/
def negClassesApp : List String :=
  ["text-red", "negative", "loss"]

/-- Strategy 2 of the scrape, shared shape of both modules: split the page on
`Profit/Loss`; `sections[1]` is the text strictly between the first and second
occurrence (or all the remaining text); look at its first 600 characters; the
value is negative when a styling token occurs in the lowercased window or a
minus sign (`−`, or `-` immediately before `$`) occurs in the first 100
characters; the magnitude is the first well-formed two-decimal dollar amount
in the window. -/
def strategy2Core (classes : List String) (cs : List Char) : Option ℚ :=
  match afterFirst profitLabel cs with
  | none => none
  | some afterL =>
    let section1 :=
      match splitFirst profitLabel afterL with
      | some p => p.1
      | none => afterL
    let sec := section1.take 600
    let neg1 := classes.any (fun c => containsSub c.data (sec.map Char.toLower))
    let first100 := sec.take 100
    let neg2 := first100.contains '−' || minusDollar first100
    match searchDollarAmount sec with
    | some a => some (if neg1 || neg2 then -(amountVal a) else amountVal a)
    | none => none

/-! ## Profile-page scrape: strategy 3 (`__NEXT_DATA__` blob, detailed module only) -/

/-- JSON values, the model of what `response.json()` / `json.loads` return. -/
inductive JVal where
  | null : JVal
  | bool : Bool → JVal
  | num : ℚ → JVal
  | str : String → JVal
  | arr : List JVal → JVal
  | obj : List (String × JVal) → JVal

/-- Python truthiness of a JSON value. -/
def truthyJ : JVal → Bool
  | .null => false
  | .bool b => b
  | .num q => q ≠ 0
  | .str s => s ≠ ""
  | .arr l => !l.isEmpty
  | .obj l => !l.isEmpty

/-- Dictionary lookup, `d[k]` on the association-list model (first match,
as in a Python dict whose keys are unique). -/
def objGet (fields : List (String × JVal)) (k : String) : Option JVal :=
  (fields.find? (fun f => f.1 = k)).map (fun f => f.2)

/-- JSON string body after the opening quote; the simple escapes are decoded,
`\u` escapes are outside the model (the parse fails, which the caller treats
like a `json.loads` error). -/
def jsonStringBody : List Char → Option (String × List Char)
  | [] => none
  | '"' :: rest => some ("", rest)
  | '\\' :: e :: rest =>
    (match e with
     | '"' => some '"'
     | '\\' => some '\\'
     | '/' => some '/'
     | 'n' => some '\n'
     | 't' => some '\t'
     | 'r' => some '\r'
     | 'b' => some '\x08'
     | 'f' => some '\x0c'
     | _ => none).bind
      (fun c => (jsonStringBody rest).map
        (fun p : String × List Char => ((⟨c :: p.1.data⟩ : String), p.2)))
  | c :: rest =>
    (jsonStringBody rest).map
      (fun p : String × List Char => ((⟨c :: p.1.data⟩ : String), p.2))

/-- JSON number at the current position. -/
def jsonNum (cs : List Char) : Option (ℚ × List Char) :=
  let signed : Bool × List Char :=
    match cs with
    | '-' :: r => (true, r)
    | _ => (false, cs)
  let ip := signed.2.takeWhile Char.isDigit
  if ip.isEmpty then none
  else
    let rest1 := signed.2.drop ip.length
    let fracRest : List Char × List Char :=
      match rest1 with
      | '.' :: r => (r.takeWhile Char.isDigit, r.drop (r.takeWhile Char.isDigit).length)
      | _ => ([], rest1)
    let mant : ℚ := (digitsToNat ip : ℚ) + (digitsToNat fracRest.1 : ℚ) / 10 ^ fracRest.1.length
    let mant := if signed.1 then -mant else mant
    match fracRest.2 with
    | c :: r =>
      if c = 'e' || c = 'E' then
        let esigned : Bool × List Char :=
          match r with
          | '-' :: rr => (true, rr)
          | '+' :: rr => (false, rr)
          | _ => (false, r)
        let eds := esigned.2.takeWhile Char.isDigit
        if eds.isEmpty then none
        else if esigned.1 then some (mant / 10 ^ digitsToNat eds, esigned.2.drop eds.length)
        else some (mant * 10 ^ digitsToNat eds, esigned.2.drop eds.length)
      else some (mant, fracRest.2)
    | [] => some (mant, [])

/-- JSON whitespace. -/
def skipJWs (cs : List Char) : List Char :=
  cs.dropWhile (fun c => c = ' ' || c = '\t' || c = '\n' || c = '\r')

mutual

/-- Fuel-bounded JSON value parser (model of `json.loads`; the fuel is set by
the caller to more than the input length, so it never runs out on the inputs
the source can produce). -/
def parseJVal : Nat → List Char → Option (JVal × List Char)
  | 0, _ => none
  | fuel + 1, cs =>
    match skipJWs cs with
    | '{' :: rest =>
      (match skipJWs rest with
       | '}' :: r2 => some (.obj [], r2)
       | _ => (parseJFields fuel rest).map (fun p => (.obj p.1, p.2)))
    | '[' :: rest =>
      (match skipJWs rest with
       | ']' :: r2 => some (.arr [], r2)
       | _ => (parseJItems fuel rest).map (fun p => (.arr p.1, p.2)))
    | '"' :: rest => (jsonStringBody rest).map (fun p => (.str p.1, p.2))
    | 't' :: rest => (eatLit "rue".data rest).map (fun r => (.bool true, r))
    | 'f' :: rest => (eatLit "alse".data rest).map (fun r => (.bool false, r))
    | 'n' :: rest => (eatLit "ull".data rest).map (fun r => (.null, r))
    | other => (jsonNum other).map (fun p => (.num p.1, p.2))

/-- Comma-separated `"key": value` list, up to and including the closing brace. -/
def parseJFields : Nat → List Char → Option (List (String × JVal) × List Char)
  | 0, _ => none
  | fuel + 1, cs => do
    let r1 ← match skipJWs cs with
             | '"' :: r => some r
             | _ => none
    let ks ← jsonStringBody r1
    let r2 ← match skipJWs ks.2 with
             | ':' :: r => some r
             | _ => none
    let v ← parseJVal fuel r2
    match skipJWs v.2 with
    | ',' :: r3 => (parseJFields fuel r3).map (fun p => ((ks.1, v.1) :: p.1, p.2))
    | '}' :: r3 => some ([(ks.1, v.1)], r3)
    | _ => none

/-- Comma-separated value list, up to and including the closing bracket. -/
def parseJItems : Nat → List Char → Option (List JVal × List Char)
  | 0, _ => none
  | fuel + 1, cs => do
    let v ← parseJVal fuel cs
    match skipJWs v.2 with
    | ',' :: r => (parseJItems fuel r).map (fun p => (v.1 :: p.1, p.2))
    | ']' :: r => some ([v.1], r)
    | _ => none

end

/-- Model of `json.loads`: parse one value and require only whitespace after
it. -/
def parseJson (s : String) : Option JVal :=
  match parseJVal (s.length + 1) s.data with
  | some (v, rest) => if (skipJWs rest).isEmpty then some v else none
  | none => none

/-- Key synonyms searched by `find_profit`, in source order. -/
def findProfitKeys : List String := ["profit", "pnl", "allTimePnl", "totalPnl", "amount"]

/-- Python `isinstance(x, (int, float))`; booleans are `int` subclasses. -/
def isNumJ : JVal → Bool
  | .num _ => true
  | .bool _ => true
  | _ => false

/-- Numeric value of a `JVal` that passed `isNumJ`. -/
def numOfJ : JVal → ℚ
  | .num q => q
  | .bool b => if b then 1 else 0
  | _ => 0

/-- `find_profit(obj, depth)` of the source: on a dict, first look up the key
synonyms in order, returning the first whose value is numeric; otherwise
recurse into the values, then into list items, cutting off below depth 10.
The fuel is `11 - depth`, so the top-level call uses fuel 11. -/
def findProfit : Nat → JVal → Option ℚ
  | 0, _ => none
  | fuel + 1, .obj fields =>
    (match findProfitKeys.findSome?
        (fun k => (objGet fields k).bind (fun v => if isNumJ v then some (numOfJ v) else none)) with
     | some q => some q
     | none => fields.findSome? (fun f => findProfit fuel f.2))
  | fuel + 1, .arr items => items.findSome? (fun it => findProfit fuel it)
  | _ + 1, _ => none

/-- The `__NEXT_DATA__` literal. -/
def nextDataLabel : List Char := "__NEXT_DATA__".data

/-- The `\x7d</script>` literal that ends the lazy group. -/
def closeScript : List Char := "\x7d</script>".data

/-- One brace candidate for `({.*?\x7d)</script>`: the lazy body runs to the
first later occurrence of `\x7d</script>`. -/
def braceAttempt (afterLabel : List Char) (j : Nat) : Option (List Char) :=
  (splitFirst closeScript (afterLabel.drop (j + 1))).map
    (fun p => '\x7b' :: (p.1 ++ ['\x7d']))

/-- Greedy `[^<]*` backtracking: brace positions inside the non-`<` run are
tried from the rightmost. -/
def tryBraces (afterLabel : List Char) : List Nat → Option (List Char)
  | [] => none
  | j :: js =>
    match braceAttempt afterLabel j with
    | some cap => some cap
    | none => tryBraces afterLabel js

/-- Attempt of `[^<]*({.*?\x7d)</script>` right after a `__NEXT_DATA__`
label. -/
def tryNextData (afterLabel : List Char) : Option (List Char) :=
  let run := afterLabel.takeWhile (fun c => c ≠ '<')
  tryBraces afterLabel
    (((List.range run.length).filter (fun i => (run.drop i).head? = some '\x7b')).reverse)

/-- Leftmost search of `__NEXT_DATA__[^<]*({.*?\x7d)</script>` (with
`re.DOTALL`): the capture of the first matching occurrence. -/
def nextDataCapture : List Char → Option (List Char)
  | [] => none
  | c :: rest =>
    match (if leadsWith nextDataLabel (c :: rest) then
             tryNextData ((c :: rest).drop nextDataLabel.length)
           else none) with
    | some cap => some cap
    | none => nextDataCapture rest

/-- Strategy 3: capture the `__NEXT_DATA__` blob, `json.loads` it (a parse
error is caught and falls through to `None`), and run `find_profit` from
depth 0 (fuel 11). -/
def nextDataProfit (cs : List Char) : Option ℚ :=
  match nextDataCapture cs with
  | none => none
  | some cap =>
    match parseJson ⟨cap⟩ with
    | none => none
    | some v => findProfit 11 v

/-! ## The two scrape functions -/

/-- Result of one HTTP text request. -/
inductive HttpText where
  | netFail : HttpText
  | resp : Nat → String → HttpText

/-- Pure part of `scrape_user_profit_from_profile` of
`polymarket_holders_detailed.py`, applied to the page markup: patterns 1-3 in
order, then strategy 2 with the detailed module's styling-token list, then
strategy 3; generic dollar-amount scraping (strategy 4) is disabled in the
source.  In the pattern-1 handler the captured sign group, when present, is
necessarily one of the two minus characters, so the source's
`sign in ['−', '-']` test is `isSome` here. -/
def scrapeProfileHtml (html : String) : Option ℚ :=
  let cs := html.data
  match pat1Search cs with
  | some r => some (if r.1.isSome then -(amountVal r.2) else amountVal r.2)
  | none =>
    match searchPat2 cs with
    | some s => some (oneGroupHandler s)
    | none =>
      match searchPat3 cs with
      | some s => some (oneGroupHandler s)
      | none =>
        match strategy2Core negClassesDetailed cs with
        | some v => some v
        | none => nextDataProfit cs

/-- `scrape_user_profit_from_profile` including its fetch wrapper: a network
failure is caught and yields `None`, a non-200 status yields `None`. -/
def scrape_user_profit_from_profile : HttpText → Option ℚ
  | .netFail => none
  | .resp status body => if status ≠ 200 then none else scrapeProfileHtml body

/-! ## Exceptions and JSON-to-float conversion -/

/-- Python exception classes distinguished by the embedding. -/
inductive PyErr where
  | valueError : PyErr
  | typeError : PyErr
  | attributeError : PyErr
deriving DecidableEq

/-- Python's `float(x)` on a JSON value: numbers pass through, booleans are
`int` subclasses, numeric strings parse (otherwise `ValueError`), anything
else is a `TypeError`. -/
def pyFloat : JVal → Except PyErr ℚ
  | .num q => .ok q
  | .bool b => .ok (if b then 1 else 0)
  | .str s =>
    match pyStrToRat s with
    | some q => .ok q
    | none => .error .valueError
  | _ => .error .typeError

/-! ## Network environments -/

/-- Result of one JSON endpoint request: a network/timeout failure, or a
response with a status code and a body on which `.json()` either fails
(`none`) or yields a value. -/
inductive EndpointResult where
  | netFail : EndpointResult
  | resp : Nat → Option JVal → EndpointResult

/-- Result of a list-returning fetch after its `try/except` wrapper
(`fetch_user_positions`, `fetch_all_user_positions`, `fetch_user_activity`):
any failure was already converted to `[]` by the wrapper's `except` branch. -/
inductive Fetched (α : Type) where
  | fail : Fetched α
  | ok : List α → Fetched α

/-- List delivered by a `Fetched` source (the `except: return []` branch). -/
def Fetched.toList : Fetched α → List α
  | .fail => []
  | .ok l => l

/-- One position entry as returned by the positions endpoint; every numeric
field is read with `float(pos.get(k, 0))`, so fields are optional rationals
(the endpoint's numeric values; non-numeric field values are outside this
part of the model). -/
structure RawPosition where
  outcomeIndex : Option ℤ := none
  size : Option ℚ := none
  avgPrice : Option ℚ := none
  curPrice : Option ℚ := none
  initialValue : Option ℚ := none
  currentValue : Option ℚ := none
  totalBought : Option ℚ := none
  realizedPnl : Option ℚ := none

/-- One activity entry as read by `fetch_user_activity` consumers. -/
structure Trade where
  side : Option String := none
  outcomeIndex : Option ℤ := none
  usdcSize : Option ℚ := none
  size : Option ℚ := none

/-- Recorded outcomes of every network call the pipeline makes for one
wallet. -/
structure NetEnv where
  positionsResp : Fetched RawPosition := .fail
  statsEndpoints : List EndpointResult := []
  statsLeaderboard : EndpointResult := .netFail
  profileResp : HttpText := .netFail
  allPositionsResp : Fetched RawPosition := .fail
  activityResp : Fetched Trade := .fail
  lbResp : EndpointResult := .netFail

/-! ## `fetch_user_stats` -/

/-- Endpoint loop of `fetch_user_stats`: each endpoint is tried in order
inside `try/except`; a network failure or a `.json()` error continues the
loop, a 200 response with a truthy body is returned, everything else
continues. -/
def tryStatsEndpoints : List EndpointResult → Option JVal
  | [] => none
  | .netFail :: rest => tryStatsEndpoints rest
  | .resp status body :: rest =>
    if status = 200 then
      match body with
      | none => tryStatsEndpoints rest
      | some d => if truthyJ d then some d else tryStatsEndpoints rest
    else tryStatsEndpoints rest

/-- Scan of the leaderboard list inside `fetch_user_stats`:
`user_stat.get('proxyWallet', '').lower() == wallet_address.lower()`.  A
non-dict entry (`get` raises) or a non-string wallet value (`.lower()`
raises) is an exception, which the caller's bare `except: pass` turns into
the empty-dict result. -/
def lbScanCaught (wallet : String) : List JVal → Except PyErr (Option JVal)
  | [] => .ok none
  | .obj fs :: rest =>
    (match (objGet fs "proxyWallet").getD (.str "") with
     | .str s =>
       if s.toLower = wallet.toLower then .ok (some (.obj fs)) else lbScanCaught wallet rest
     | _ => .error .attributeError)
  | _ :: _ => .error .attributeError

/-- `fetch_user_stats`: the four profit endpoints in order, then the
leaderboard fallback (only used when it returns a 200 list in which the
wallet occurs), otherwise the empty dict.  Total: every exception inside is
caught by the source's `try/except` blocks. -/
def fetch_user_stats (wallet : String) (e : NetEnv) : JVal :=
  match tryStatsEndpoints e.statsEndpoints with
  | some d => d
  | none =>
    match e.statsLeaderboard with
    | .netFail => .obj []
    | .resp status body =>
      if status = 200 then
        match body with
        | none => .obj []
        | some d =>
          if truthyJ d then
            match d with
            | .arr entries =>
              (match lbScanCaught wallet entries with
               | .ok (some entry) => entry
               | .ok none => .obj []
               | .error _ => .obj [])
            | _ => .obj []
          else .obj []
      else .obj []

/-! ## `calculate_position_details` and the derived fallback -/

/-- The record built by `calculate_position_details`; the no-position value
has no `total_bought` key, hence the optional field. -/
structure PositionDetails where
  shares : ℚ
  avg_price : ℚ
  initial_value : ℚ
  current_value : ℚ
  current_price : ℚ
  pnl_cash : ℚ
  pnl_percent : ℚ
  total_bought : Option ℚ

/-- The explicit "no position" value: every numeric field zero. -/
def zeroPositionDetails : PositionDetails :=
  { shares := 0, avg_price := 0, initial_value := 0, current_value := 0,
    current_price := 0, pnl_cash := 0, pnl_percent := 0, total_bought := none }

/-- `calculate_position_details`, applied to the already-fetched positions
list: select the first entry whose `outcomeIndex` equals the requested one;
if none, return the all-zero record; otherwise read the floats, set
`pnl_cash` to `current_value - initial_value` (the source also computes the
price-based alternative `(current_price - avg_price) * shares` but stores
the value-based one), and guard the percent by `initial_value > 0`. -/
def calculate_position_details (positions : List RawPosition) (outcome_index : ℤ) :
    PositionDetails :=
  match positions.find? (fun p => p.outcomeIndex = some outcome_index) with
  | none => zeroPositionDetails
  | some position =>
    let shares := position.size.getD 0
    let avg_price := position.avgPrice.getD 0
    let current_price := position.curPrice.getD 0
    let initial_value := position.initialValue.getD 0
    let current_value := position.currentValue.getD 0
    let calculated_pnl_alt := current_value - initial_value
    { shares := shares, avg_price := avg_price, initial_value := initial_value,
      current_value := current_value, current_price := current_price,
      pnl_cash := calculated_pnl_alt,
      pnl_percent := if initial_value > 0 then calculated_pnl_alt / initial_value * 100 else 0,
      total_bought := some (position.totalBought.getD 0) }

/-- Last-resort all-time P&L: over all of the wallet's positions, the sum of
`currentValue - initialValue` plus the sum of `realizedPnl`; `0` when the
positions list is empty or the fetch failed. -/
def derivedPnl (positions : List RawPosition) : ℚ :=
  if positions.isEmpty then 0
  else
    (positions.map (fun p => p.currentValue.getD 0 - p.initialValue.getD 0)).sum +
    (positions.map (fun p => p.realizedPnl.getD 0)).sum

/-! ## The all-time P&L resolver of `polymarket_holders_detailed.py` -/

/-- Truthiness-based `a or b or c`: the first truthy operand, else the last
operand (which Python returns even when falsy). -/
def orChain3 (a b c : Option JVal) : Option JVal :=
  if (a.map truthyJ).getD false then a
  else if (b.map truthyJ).getD false then b
  else c

/-- The `is not None` filter applied to the chain result: a present value
`None` (JSON `null`) is indistinguishable from an absent key. -/
def toPyOpt : Option JVal → Option JVal
  | some .null => none
  | x => x

/-- Leaderboard-list scan of `enrich_holder_with_position` (lines 361-365):
unlike the one inside `fetch_user_stats` this one is *not* inside a
`try/except`, and the matching entry's amount goes through `float(...)`,
so exceptions propagate. -/
def lbScanEnrich (wallet : String) : List JVal → Except PyErr (Option ℚ)
  | [] => .ok none
  | .obj fs :: rest =>
    (match (objGet fs "proxyWallet").getD (.str "") with
     | .str s =>
       if s.toLower = wallet.toLower then
         match pyFloat ((objGet fs "amount").getD (.num 0)) with
         | .ok q => .ok (some q)
         | .error er => .error er
       else lbScanEnrich wallet rest
     | _ => .error .attributeError)
  | _ :: _ => .error .attributeError

/-- Strategy 1 of the resolver (lines 346-365): call `fetch_user_stats`; on a
truthy dict result take `stats.get('amount') or stats.get('profit') or
stats.get('pnl')` and, when that is not `None`, convert with `float(...)`
(which can raise); on a truthy list result scan for the wallet.  `.ok none`
means "no value yet, fall through". -/
def apiStage (wallet : String) (e : NetEnv) : Except PyErr (Option ℚ) :=
  let stats := fetch_user_stats wallet e
  if truthyJ stats then
    match stats with
    | .obj fields =>
      (match toPyOpt (orChain3 (objGet fields "amount") (objGet fields "profit")
          (objGet fields "pnl")) with
       | some v =>
         (match pyFloat v with
          | .ok q => .ok (some q)
          | .error er => .error er)
       | none => .ok none)
    | .arr entries => lbScanEnrich wallet entries
    | _ => .ok none
  else .ok none

/-- All-time P&L resolution of `enrich_holder_with_position` (lines 346-386):
the API stage, then the profile-page scrape, then the derived-from-positions
fallback (which also covers the `else: ... = 0` branch, since `derivedPnl`
of an empty list is 0). -/
def resolve_all_time_pnl (wallet : String) (e : NetEnv) : Except PyErr ℚ :=
  match apiStage wallet e with
  | .error er => .error er
  | .ok (some v) => .ok v
  | .ok none =>
    match scrape_user_profit_from_profile e.profileResp with
    | some v => .ok v
    | none => .ok (derivedPnl e.allPositionsResp.toList)

/-! ## Holder stubs and the detailed enrichment -/

/-- Raw entry of the holders endpoint as each consumer reads it. -/
structure HolderStub where
  proxyWallet : Option String := none
  name : Option String := none
  pseudonym : Option String := none
  bio : Option String := none
  outcomeIndex : Option ℤ := none
  amount : Option ℚ := none

/-- Wallet after the `if not wallet:` falsiness test: an absent key and an
empty string both fail it. -/
def walletOf (h : HolderStub) : Option String :=
  match h.proxyWallet with
  | none => none
  | some w => if w = "" then none else some w

/-- Activity-derived fields of the enriched record; every field is absent
when the corresponding guard of the source is false. -/
structure ActivityFields where
  num_buys : Option ℕ := none
  num_sells : Option ℕ := none
  total_trades : Option ℕ := none
  total_buy_volume : Option ℚ := none
  total_buy_shares : Option ℚ := none
  total_sell_volume : Option ℚ := none
  total_sell_shares : Option ℚ := none

/-- Trading-activity block of `enrich_holder_with_position` (lines 389-411):
nothing is set when the activity list is empty; the buy/sell partitions are
filtered by side and outcome index; the volume/share sums are set only when
the respective partition is nonempty. -/
def mkActivityFields (activity : List Trade) (outcome_index : ℤ) : ActivityFields :=
  if activity.isEmpty then {}
  else
    let buys := activity.filter
      (fun t => t.side = some "BUY" && t.outcomeIndex = some outcome_index)
    let sells := activity.filter
      (fun t => t.side = some "SELL" && t.outcomeIndex = some outcome_index)
    { num_buys := some buys.length, num_sells := some sells.length,
      total_trades := some (buys.length + sells.length),
      total_buy_volume :=
        if buys.isEmpty then none else some (buys.map (fun t => t.usdcSize.getD 0)).sum,
      total_buy_shares :=
        if buys.isEmpty then none else some (buys.map (fun t => t.size.getD 0)).sum,
      total_sell_volume :=
        if sells.isEmpty then none else some (sells.map (fun t => t.usdcSize.getD 0)).sum,
      total_sell_shares :=
        if sells.isEmpty then none else some (sells.map (fun t => t.size.getD 0)).sum }

/-- The enriched record built by `enrich_holder_with_position` when the stub
has a wallet. -/
structure DetailedEnriched where
  wallet : String
  name : Option String
  pseudonym : Option String
  bio : Option String
  shares_from_holders_api : ℚ
  outcomeIndex : ℤ
  outcome : String
  position : PositionDetails
  total_pnl_all_markets : ℚ
  activity : ActivityFields

/-- Output row of the detailed pipeline: a wallet-less stub is returned
unchanged (the raw dict, which in particular has no
`total_pnl_all_markets` key), every other stub becomes an enriched
record. -/
inductive DRow where
  | raw : HolderStub → DRow
  | enriched : DetailedEnriched → DRow

/-- `enrich_holder_with_position` for one stub, over the wallet-indexed
network environment.  The all-time-P&L resolution can raise (strategy 1's
`float(...)` is not guarded), hence the `Except`. -/
def enrich_holder_with_position (env : String → NetEnv) (holder : HolderStub) :
    Except PyErr DRow :=
  match walletOf holder with
  | none => .ok (.raw holder)
  | some wallet =>
    let e := env wallet
    let outcome_index := holder.outcomeIndex.getD 0
    let position_details := calculate_position_details e.positionsResp.toList outcome_index
    match resolve_all_time_pnl wallet e with
    | .error er => .error er
    | .ok pnl =>
      .ok (.enriched
        { wallet := wallet, name := holder.name, pseudonym := holder.pseudonym,
          bio := holder.bio, shares_from_holders_api := holder.amount.getD 0,
          outcomeIndex := outcome_index,
          outcome := if outcome_index = 0 then "YES" else "NO",
          position := position_details,
          total_pnl_all_markets := pnl,
          activity := mkActivityFields e.activityResp.toList outcome_index })

/-- Enrichment loop of `process_market` (lines 602-607): every stub's result
is appended; an exception aborts the whole pass (it is only caught by the
`except` around the market loop). -/
def process_enrich_loop (env : String → NetEnv) : List HolderStub → Except PyErr (List DRow)
  | [] => .ok []
  | h :: t =>
    match enrich_holder_with_position env h with
    | .error er => .error er
    | .ok r =>
      match process_enrich_loop env t with
      | .error er => .error er
      | .ok rest => .ok (r :: rest)

/-- Side-dependent selection of `process_market` (lines 588-596): the side is
read off the first entry (`holders[0].get('outcomeIndex', 0)`, YES when 0);
the NO side takes `holders[1:16]`, the YES side `holders[:15]`. -/
def holders_to_process (holders : List HolderStub) : List HolderStub :=
  match holders with
  | [] => []
  | h :: _ =>
    if h.outcomeIndex.getD 0 = 0 then holders.take 15
    else (holders.drop 1).take 15

/-- Value summed by the all-time P&L average of `process_market` (line 623):
`h.get('total_pnl_all_markets', 0)`, which is 0 for a raw (wallet-less)
row since the key was never set. -/
def total_pnl_or_zero : DRow → ℚ
  | .raw _ => 0
  | .enriched e => e.total_pnl_all_markets

/-- Average all-time P&L of `process_market` (lines 622-624): the sum of
`total_pnl_or_zero` over all rows divided by the number of rows. -/
def avg_total_pnl (rows : List DRow) : ℚ :=
  if rows.isEmpty then 0
  else (rows.map total_pnl_or_zero).sum / (rows.length : ℚ)

/-! ## The `streamlit_app.py` module -/

namespace App

/-- `fetch_profit_leaderboard`: the whole body is inside `try/except`, the
status code is never checked, and a value is produced only when the body is
a truthy dict with a `profit` key whose value `float(...)` accepts; every
exception yields `None`. -/
def fetch_profit_leaderboard : EndpointResult → Option ℚ
  | .netFail => none
  | .resp _ none => none
  | .resp _ (some d) =>
    if truthyJ d then
      match d with
      | .obj fs =>
        (match objGet fs "profit" with
         | some v =>
           (match pyFloat v with
            | .ok q => some q
            | .error _ => none)
         | none => none)
      | _ => none
    else none

/-- Pure part of `scrape_pnl`: pattern 1 (the same regex as the detailed
module), then the context strategy with the app's shorter styling-token
list; there are no `data-pnl` patterns and no `__NEXT_DATA__` strategy in
this module. -/
def scrapeHtml (html : String) : Option ℚ :=
  let cs := html.data
  match pat1Search cs with
  | some r => some (if r.1.isSome then -(amountVal r.2) else amountVal r.2)
  | none => strategy2Core negClassesApp cs

/-- `scrape_pnl` with its fetch wrapper: `requests.get(...).text` is used
whatever the status (there is no status check in this module); a network
failure is caught and yields `None`. -/
def scrape_pnl : HttpText → Option ℚ
  | .netFail => none
  | .resp _ body => scrapeHtml body

/-- `get_pnl`: the leaderboard API, else the scrape (`pnl if pnl is not None
else scrape_pnl(wallet)`). -/
def get_pnl (e : NetEnv) : Option ℚ :=
  match fetch_profit_leaderboard e.lbResp with
  | some v => some v
  | none => scrape_pnl e.profileResp

/-- Output row of `enrich_holder`. -/
structure SRow where
  nameCol : String
  sharesCol : ℤ
  entryCol : ℚ
  currentCol : ℚ
  valueCol : ℤ
  marketPnlCol : ℤ
  allTimePnlCol : Option ℚ

/-- `enrich_holder`: `None` (drop) when the stub has no wallet *or* when no
position matches the outcome index; otherwise the displayed row, whose
`Shares`, `Value` and `Market P&L` go through `int(...)` truncation and
whose `Market P&L` is `int(current_value - initial_value)`. -/
def enrich_holder (env : String → NetEnv) (holder : HolderStub) : Option SRow :=
  match walletOf holder with
  | none => none
  | some wallet =>
    let e := env wallet
    let outcome_index := holder.outcomeIndex.getD 0
    match e.positionsResp.toList.find? (fun p => p.outcomeIndex = some outcome_index) with
    | none => none
    | some position =>
      let shares := position.size.getD 0
      let avg_price := position.avgPrice.getD 0
      let current_price := position.curPrice.getD 0
      let current_value := position.currentValue.getD 0
      let initial_value := position.initialValue.getD 0
      some
        { nameCol := match holder.name with
                     | some n => if n = "" then wallet.take 10 else n
                     | none => wallet.take 10,
          sharesCol := pyInt shares,
          entryCol := avg_price,
          currentCol := current_price,
          valueCol := pyInt current_value,
          marketPnlCol := pyInt (current_value - initial_value),
          allTimePnlCol := get_pnl e }

/-- Collection loop of `run_analysis` (lines 334-357): `enrich_holder` per
stub, appending only truthy (non-`None`) results. -/
def analysis_collect (env : String → NetEnv) : List HolderStub → List SRow
  | [] => []
  | h :: t =>
    match enrich_holder env h with
    | some r => r :: analysis_collect env t
    | none => analysis_collect env t

/-- Side-dependent selection of `run_analysis` (lines 317-322): the side is
read off the first entry (`holders[0].get('outcomeIndex') == 0`, with no
default); YES takes `holders[:15]`, anything else (including an absent
index) is the NO branch and takes `holders[1:16]`. -/
def run_analysis_select (holders : List HolderStub) : List HolderStub :=
  match holders with
  | [] => []
  | h :: _ =>
    if h.outcomeIndex = some 0 then holders.take 15
    else (holders.drop 1).take 15

/-- Mean of the `All-Time P&L` column as pandas `Series.mean()` computes it
with the default `skipna`: the mean of the known values, `none` (rendered
`N/A`) when no value is known.  Modelled from the pandas library behaviour
the source relies on. -/
def meanKnown (l : List (Option ℚ)) : Option ℚ :=
  let ks := l.filterMap id
  if ks.isEmpty then none else some (ks.sum / (ks.length : ℚ))

end App

/-! ## Helper lemmas -/

theorem amountVal_eq (s : String) (ip fp : List Char)
    (h : splitFirst ['.'] (s.data.filter (fun c => c ≠ ',')) = some (ip, fp)) :
    amountVal s = (digitsToNat ip : ℚ) + (digitsToNat fp : ℚ) / 10 ^ fp.length := by
  simp only [amountVal]
  rw [h]

theorem amountVal_123456 : amountVal "1,234.56" = 123456 / 100 := by
  rw [amountVal_eq _ ['1', '2', '3', '4'] ['5', '6'] (by decide)]
  have h1 : digitsToNat ['1', '2', '3', '4'] = 1234 := by decide
  have h2 : digitsToNat ['5', '6'] = 56 := by decide
  rw [h1, h2]; norm_num

/-! ## Claim theorems -/

/-- Bridge lemmas for the pattern-1 matcher, used to prove the sign
extraction on arbitrary intervening markup. -/
theorem dollarAmount_space (c : Char) (hc : isPySpace c = true) (l : List Char) :
    dollarAmount (c :: l) = dollarAmount l := by
  simp [dollarAmount, List.dropWhile_cons, hc]

theorem dollarAmount_head_ne (x : Char) (hx : x ≠ '$') (hxs : isPySpace x = false)
    (l : List Char) : dollarAmount (x :: l) = none := by
  simp [dollarAmount, List.dropWhile_cons, hxs, hx]

theorem dollarAmount_stops (l : List Char) (hD : ∀ c ∈ l, c ≠ '$') (s : Char)
    (hs : s ≠ '$') (hsp : isPySpace s = false) (rest : List Char) :
    dollarAmount (l ++ s :: rest) = none := by
  induction l with
  | nil => simpa using dollarAmount_head_ne s hs hsp rest
  | cons c l2 ih =>
    by_cases hcs : isPySpace c = true
    · rw [List.cons_append, dollarAmount_space c hcs]
      exact ih (fun d hd => hD d (List.mem_cons_of_mem c hd))
    · have hcf : isPySpace c = false := by simpa using hcs
      have hc : c ≠ '$' := hD c (List.mem_cons_self c l2)
      rw [List.cons_append, dollarAmount_head_ne c hc hcf]

theorem dollarAmount_reaches (l : List Char) (hD : ∀ c ∈ l, c ≠ '$') (rest : List Char) :
    dollarAmount (l ++ '$' :: rest) = none ∨
    dollarAmount (l ++ '$' :: rest) = matchAmount (rest.dropWhile isPySpace) := by
  induction l with
  | nil =>
    right
    have h1 : isPySpace '$' = false := by decide
    simp [dollarAmount, List.dropWhile_cons, h1]
  | cons c l2 ih =>
    by_cases hcs : isPySpace c = true
    · rw [List.cons_append, dollarAmount_space c hcs]
      exact ih (fun d hd => hD d (List.mem_cons_of_mem c hd))
    · have hcf : isPySpace c = false := by simpa using hcs
      have hc : c ≠ '$' := hD c (List.mem_cons_self c l2)
      left
      rw [List.cons_append, dollarAmount_head_ne c hc hcf]

theorem leadsWith_append (l t : List Char) : leadsWith l (l ++ t) = true := by
  induction l with
  | nil => rfl
  | cons c l2 ih => simp [leadsWith, ih]

theorem sda_notminus (c : Char) (hc : isMinusChar c = false) (l : List Char) :
    signDollarAmount (c :: l) =
      (dollarAmount (c :: l)).map (fun a => ((none : Option Char), a)) := by
  simp [signDollarAmount, hc]

theorem sda_minus (s : Char) (hs : isMinusChar s = true) (l : List Char) (a : String)
    (h : dollarAmount l = some a) : signDollarAmount (s :: l) = some (some s, a) := by
  simp [signDollarAmount, hs, h]

/-- The `$1,234.56` tail of the spec's markup examples. -/
def dollarTail : List Char := "$1,234.56".data

/-- The digits of the amount, after the `$`. -/
def numTail : List Char := "1,234.56".data

theorem scanPat1_neg (sign : Char) (hsgn : isMinusChar sign = true) (hsne : sign ≠ '$')
    (hssp : isPySpace sign = false) (mid : List Char)
    (hD : ∀ c ∈ mid, c ≠ '$') (hM : ∀ c ∈ mid, isMinusChar c = false) :
    scanPat1 (mid ++ sign :: dollarTail) = some (some sign, "1,234.56") := by
  induction mid with
  | nil =>
    have hA : dollarAmount dollarTail = some "1,234.56" := by decide
    rw [List.nil_append]
    simp only [scanPat1, sda_minus sign hsgn _ _ hA]
  | cons c mid2 ih =>
    have hcM : isMinusChar c = false := hM c (List.mem_cons_self c mid2)
    have hcD : c ≠ '$' := hD c (List.mem_cons_self c mid2)
    have hnone : dollarAmount (c :: (mid2 ++ sign :: dollarTail)) = none := by
      have := dollarAmount_stops (c :: mid2) hD sign hsne hssp dollarTail
      rwa [List.cons_append] at this
    rw [List.cons_append]
    simp only [scanPat1, sda_notminus c hcM, hnone, Option.map_none, if_neg hcD]
    exact ih (fun d hd => hD d (List.mem_cons_of_mem c hd))
      (fun d hd => hM d (List.mem_cons_of_mem c hd))

theorem scanPat1_pos (mid : List Char)
    (hD : ∀ c ∈ mid, c ≠ '$') (hM : ∀ c ∈ mid, isMinusChar c = false) :
    scanPat1 (mid ++ dollarTail) = some ((none : Option Char), "1,234.56") := by
  have hdt : dollarTail = '$' :: numTail := rfl
  induction mid with
  | nil => decide
  | cons c mid2 ih =>
    have hcM : isMinusChar c = false := hM c (List.mem_cons_self c mid2)
    have hcD : c ≠ '$' := hD c (List.mem_cons_self c mid2)
    have hmA : matchAmount (numTail.dropWhile isPySpace) = some "1,234.56" := by decide
    have hreach := dollarAmount_reaches (c :: mid2)
      (fun d hd => hD d hd) numTail
    rw [← hdt, List.cons_append] at hreach
    rw [hmA] at hreach
    rw [List.cons_append]
    cases hreach with
    | inl hnone =>
      simp only [scanPat1, sda_notminus c hcM, hnone, Option.map_none, if_neg hcD]
      exact ih (fun d hd => hD d (List.mem_cons_of_mem c hd))
        (fun d hd => hM d (List.mem_cons_of_mem c hd))
    | inr hsome =>
      simp [scanPat1, sda_notminus c hcM, hsome]

theorem pat1Search_label (tail : List Char) (r : Option Char × String)
    (h : scanPat1 tail = some r) : pat1Search (profitLabel ++ tail) = some r := by
  have hcons : profitLabel ++ tail = 'P' :: ("rofit/Loss".data ++ tail) := rfl
  have hlw : leadsWith profitLabel ('P' :: ("rofit/Loss".data ++ tail)) = true := by
    rw [show 'P' :: ("rofit/Loss".data ++ tail) = profitLabel ++ tail from rfl]
    exact leadsWith_append profitLabel tail
  have hdr : ('P' :: ("rofit/Loss".data ++ tail)).drop profitLabel.length = tail := by
    rw [show 'P' :: ("rofit/Loss".data ++ tail) = profitLabel ++ tail from rfl]
    exact List.drop_left profitLabel tail
  rw [hcons]
  simp only [pat1Search, hlw, if_true, hdr, h]

/-- C2: on markup containing a `Profit/Loss` label followed by any
intervening text free of `$` and of either minus character, and then a
dollar amount, both modules' extractors return exactly −1234.56 when the
amount is preceded by the Unicode minus sign U+2212, exactly −1234.56 when
preceded by an ASCII minus, and exactly +1234.56 with no sign marker. -/
theorem C2_sign_extraction (mid : List Char) (hD : ∀ c ∈ mid, c ≠ '$')
    (hM : ∀ c ∈ mid, isMinusChar c = false) :
    scrape_user_profit_from_profile
        (.resp 200 ⟨profitLabel ++ (mid ++ '−' :: dollarTail)⟩) =
      some (-(123456 / 100 : ℚ)) ∧
    scrape_user_profit_from_profile
        (.resp 200 ⟨profitLabel ++ (mid ++ '-' :: dollarTail)⟩) =
      some (-(123456 / 100 : ℚ)) ∧
    scrape_user_profit_from_profile
        (.resp 200 ⟨profitLabel ++ (mid ++ dollarTail)⟩) =
      some (123456 / 100 : ℚ) ∧
    App.scrape_pnl (.resp 200 ⟨profitLabel ++ (mid ++ '−' :: dollarTail)⟩) =
      some (-(123456 / 100 : ℚ)) ∧
    App.scrape_pnl (.resp 200 ⟨profitLabel ++ (mid ++ '-' :: dollarTail)⟩) =
      some (-(123456 / 100 : ℚ)) ∧
    App.scrape_pnl (.resp 200 ⟨profitLabel ++ (mid ++ dollarTail)⟩) =
      some (123456 / 100 : ℚ) := by
  have hpU : pat1Search (profitLabel ++ (mid ++ '−' :: dollarTail)) =
      some (some '−', "1,234.56") :=
    pat1Search_label _ _ (scanPat1_neg '−' (by decide) (by decide) (by decide) mid hD hM)
  have hpA : pat1Search (profitLabel ++ (mid ++ '-' :: dollarTail)) =
      some (some '-', "1,234.56") :=
    pat1Search_label _ _ (scanPat1_neg '-' (by decide) (by decide) (by decide) mid hD hM)
  have hpN : pat1Search (profitLabel ++ (mid ++ dollarTail)) =
      some ((none : Option Char), "1,234.56") :=
    pat1Search_label _ _ (scanPat1_pos mid hD hM)
  refine ⟨?_, ?_, ?_, ?_, ?_, ?_⟩ <;>
    simp [scrape_user_profit_from_profile, App.scrape_pnl, scrapeProfileHtml,
      App.scrapeHtml, hpU, hpA, hpN, amountVal_123456]

/-- Witness for C2 at the spec's concrete markup instances. -/
theorem C2_witness :
    scrape_user_profit_from_profile (.resp 200 "Profit/Loss 1D1W1MALL −$1,234.56") =
      some (-(123456 / 100 : ℚ)) ∧
    scrape_user_profit_from_profile (.resp 200 "Profit/Loss 1D1W1MALL -$1,234.56") =
      some (-(123456 / 100 : ℚ)) ∧
    scrape_user_profit_from_profile (.resp 200 "Profit/Loss 1D1W1MALL $1,234.56") =
      some (123456 / 100 : ℚ) ∧
    App.scrape_pnl (.resp 200 "Profit/Loss 1D1W1MALL −$1,234.56") =
      some (-(123456 / 100 : ℚ)) ∧
    App.scrape_pnl (.resp 200 "Profit/Loss 1D1W1MALL -$1,234.56") =
      some (-(123456 / 100 : ℚ)) ∧
    App.scrape_pnl (.resp 200 "Profit/Loss 1D1W1MALL $1,234.56") =
      some (123456 / 100 : ℚ) := by
  have h := C2_sign_extraction " 1D1W1MALL ".data (by decide) (by decide)
  have e1 : ("Profit/Loss 1D1W1MALL −$1,234.56" : String) =
      ⟨profitLabel ++ (" 1D1W1MALL ".data ++ '−' :: dollarTail)⟩ := rfl
  have e2 : ("Profit/Loss 1D1W1MALL -$1,234.56" : String) =
      ⟨profitLabel ++ (" 1D1W1MALL ".data ++ '-' :: dollarTail)⟩ := rfl
  have e3 : ("Profit/Loss 1D1W1MALL $1,234.56" : String) =
      ⟨profitLabel ++ (" 1D1W1MALL ".data ++ dollarTail)⟩ := rfl
  rw [e1, e2, e3]
  exact h

theorem take15_spec (l : List HolderStub) (hl : 15 ≤ l.length) :
    (l.take 15).length = 15 ∧ ∀ i, i < 15 → (l.take 15)[i]? = l[i]? := by
  constructor
  · simp only [List.length_take]; omega
  · intro i hi; rw [List.getElem?_take, if_pos hi]

/-- C3: on a ranked holder list of length at least 16, both modules' selection
skips exactly the rank-0 entry for the NO side and takes ranks 1-15 (15
entries), and takes ranks 0-14 unmodified (15 entries) for the YES side.
The side is read off the first entry's outcome index: `holders[0].get('outcomeIndex', 0) == 0`
means YES in the detailed script, `holders[0].get('outcomeIndex') == 0` in the app. -/
theorem C3_side_selection (h0 : HolderStub) (t : List HolderStub)
    (hlen : 16 ≤ (h0 :: t).length) :
    ((h0.outcomeIndex.getD 0 ≠ 0 →
        holders_to_process (h0 :: t) = ((h0 :: t).drop 1).take 15 ∧
        (holders_to_process (h0 :: t)).length = 15 ∧
        ∀ i, i < 15 → (holders_to_process (h0 :: t))[i]? = (h0 :: t)[i + 1]?) ∧
     (h0.outcomeIndex.getD 0 = 0 →
        holders_to_process (h0 :: t) = (h0 :: t).take 15 ∧
        (holders_to_process (h0 :: t)).length = 15 ∧
        ∀ i, i < 15 → (holders_to_process (h0 :: t))[i]? = (h0 :: t)[i]?)) ∧
    ((h0.outcomeIndex ≠ some 0 →
        App.run_analysis_select (h0 :: t) = ((h0 :: t).drop 1).take 15 ∧
        (App.run_analysis_select (h0 :: t)).length = 15 ∧
        ∀ i, i < 15 → (App.run_analysis_select (h0 :: t))[i]? = (h0 :: t)[i + 1]?) ∧
     (h0.outcomeIndex = some 0 →
        App.run_analysis_select (h0 :: t) = (h0 :: t).take 15 ∧
        (App.run_analysis_select (h0 :: t)).length = 15 ∧
        ∀ i, i < 15 → (App.run_analysis_select (h0 :: t))[i]? = (h0 :: t)[i]?)) := by
  have hlt : 15 ≤ t.length := by
    simp only [List.length_cons] at hlen; omega
  have hlc : 15 ≤ (h0 :: t).length := by simp only [List.length_cons]; omega
  have hdrop : (h0 :: t).drop 1 = t := rfl
  have hNo : ∀ i, i < 15 → (t.take 15)[i]? = (h0 :: t)[i + 1]? := by
    intro i hi
    rw [(take15_spec t hlt).2 i hi]
    simp
  refine ⟨⟨?_, ?_⟩, ⟨?_, ?_⟩⟩
  · intro hne
    have hsel : holders_to_process (h0 :: t) = t.take 15 := by
      simp only [holders_to_process, if_neg hne, hdrop]
    exact ⟨by rw [hsel, hdrop], by rw [hsel]; exact (take15_spec t hlt).1,
      fun i hi => by rw [hsel]; exact hNo i hi⟩
  · intro heq
    have hsel : holders_to_process (h0 :: t) = (h0 :: t).take 15 := by
      simp only [holders_to_process, if_pos heq]
    exact ⟨hsel, by rw [hsel]; exact (take15_spec _ hlc).1,
      fun i hi => by rw [hsel]; exact (take15_spec _ hlc).2 i hi⟩
  · intro hne
    have hsel : App.run_analysis_select (h0 :: t) = t.take 15 := by
      simp only [App.run_analysis_select, if_neg hne, hdrop]
    exact ⟨by rw [hsel, hdrop], by rw [hsel]; exact (take15_spec t hlt).1,
      fun i hi => by rw [hsel]; exact hNo i hi⟩
  · intro heq
    have hsel : App.run_analysis_select (h0 :: t) = (h0 :: t).take 15 := by
      simp only [App.run_analysis_select, if_pos heq]
    exact ⟨hsel, by rw [hsel]; exact (take15_spec _ hlc).1,
      fun i hi => by rw [hsel]; exact (take15_spec _ hlc).2 i hi⟩

def noSideStub : HolderStub := { outcomeIndex := some 1 }

/-- Witness for C3 at a concrete 16-entry NO-side list. -/
theorem C3_witness :
    (holders_to_process (noSideStub :: List.replicate 15 noSideStub)).length = 15 ∧
    (App.run_analysis_select (noSideStub :: List.replicate 15 noSideStub)).length = 15 := by
  have h := C3_side_selection noSideStub (List.replicate 15 noSideStub) (by simp)
  exact ⟨(h.1.1 (by simp [noSideStub])).2.1, (h.2.1 (by simp [noSideStub])).2.1⟩

/-- Position exhibiting that the value-based and the price-based P&L
formulas genuinely differ. -/
def posSep : RawPosition :=
  { outcomeIndex := some 0, size := some 1, avgPrice := some 0, curPrice := some 0,
    initialValue := some 0, currentValue := some 5 }

/-- C5 (amended): in the detailed script `pnl_cash` equals exactly
`current_value - initial_value` for every position record (and never the
price-based alternative, which differs on `posSep`); in the streamlit app
the `Market P&L` column is the `int(...)`-truncation of
`current_value - initial_value`, not the exact difference. -/
theorem C5_market_pnl_amended :
    (∀ positions oi, (calculate_position_details positions oi).pnl_cash =
        (calculate_position_details positions oi).current_value -
        (calculate_position_details positions oi).initial_value) ∧
    (∀ env h w r p, walletOf h = some w →
        (env w).positionsResp.toList.find?
            (fun q => q.outcomeIndex = some (h.outcomeIndex.getD 0)) = some p →
        App.enrich_holder env h = some r →
        r.marketPnlCol = pyInt (p.currentValue.getD 0 - p.initialValue.getD 0)) ∧
    (calculate_position_details [posSep] 0).pnl_cash ≠
      ((calculate_position_details [posSep] 0).current_price -
       (calculate_position_details [posSep] 0).avg_price) *
      (calculate_position_details [posSep] 0).shares := by
  refine ⟨?_, ?_, ?_⟩
  · intro positions oi
    cases hfind : positions.find? (fun p => p.outcomeIndex = some oi) with
    | none => simp [calculate_position_details, hfind, zeroPositionDetails]
    | some p => simp [calculate_position_details, hfind]
  · intro env h w r p hw hfind hr
    simp only [App.enrich_holder, hw, hfind] at hr
    cases hr
    rfl
  · have hfind : [posSep].find? (fun p => p.outcomeIndex = some 0) = some posSep := by
      simp [posSep]
    simp only [calculate_position_details, hfind]
    norm_num [posSep]

def stubC5 : HolderStub := { proxyWallet := some "w1", outcomeIndex := some 0 }

def posC5 : RawPosition :=
  { outcomeIndex := some 0, initialValue := some 0, currentValue := some (21 / 2) }

def envC5 : String → NetEnv := fun _ => { positionsResp := .ok [posC5] }

/-- C5 (counterexample): for a position with `current_value = 10.5` and
`initial_value = 0`, the streamlit app's `Market P&L` field is the truncated
10, which is not the exact difference 10.5 — so the claim's "exact identity,
never approximate" fails on the streamlit pipeline's records. -/
theorem C5_cex :
    (App.enrich_holder envC5 stubC5).map (fun r => r.marketPnlCol) = some 10 ∧
    ((10 : ℚ) ≠ 21 / 2 - 0) ∧
    ((envC5 "w1").positionsResp.toList.map
      (fun p => p.currentValue.getD 0 - p.initialValue.getD 0)) = [21 / 2 - 0] := by
  refine ⟨?_, by norm_num, ?_⟩
  · have hw : walletOf stubC5 = some "w1" := by decide
    have hfind : (envC5 "w1").positionsResp.toList.find?
        (fun q => q.outcomeIndex = some (stubC5.outcomeIndex.getD 0)) = some posC5 := by
      simp [envC5, posC5, stubC5, Fetched.toList]
    simp only [App.enrich_holder, hw, hfind]
    norm_num [posC5, pyInt]
  · simp [envC5, posC5, Fetched.toList]

/-- Witness for C5 (amended): the exact identity on a concrete found
position, and the streamlit conjunct applied at the concrete environment of
`C5_cex`, its hypotheses discharged by evaluation. -/
theorem C5_witness :
    (calculate_position_details [posSep] 0).pnl_cash =
      (calculate_position_details [posSep] 0).current_value -
      (calculate_position_details [posSep] 0).initial_value ∧
    ∃ r, App.enrich_holder envC5 stubC5 = some r ∧
      r.marketPnlCol = pyInt (posC5.currentValue.getD 0 - posC5.initialValue.getD 0) := by
  refine ⟨C5_market_pnl_amended.1 [posSep] 0, ?_⟩
  obtain ⟨r, hr⟩ : ∃ r, App.enrich_holder envC5 stubC5 = some r := ⟨_, rfl⟩
  exact ⟨r, hr, C5_market_pnl_amended.2.1 envC5 stubC5 "w1" r posC5 rfl rfl hr⟩

/-- C8 (amended): when no position matches the requested outcome index, the
detailed script returns the explicit all-zero "no position" record and keeps
the holder in the output (with that zero record and the resolved all-time
P&L), while the streamlit app's `enrich_holder` returns `None`, dropping the
holder. -/
theorem C8_no_position_amended :
    (∀ (positions : List RawPosition) (oi : ℤ),
        positions.find? (fun p => p.outcomeIndex = some oi) = none →
        calculate_position_details positions oi = zeroPositionDetails) ∧
    (∀ env h w, walletOf h = some w →
        (env w).positionsResp.toList.find?
            (fun p => p.outcomeIndex = some (h.outcomeIndex.getD 0)) = none →
        ∀ pnl, resolve_all_time_pnl w (env w) = .ok pnl →
        enrich_holder_with_position env h = .ok (.enriched
          { wallet := w, name := h.name, pseudonym := h.pseudonym, bio := h.bio,
            shares_from_holders_api := h.amount.getD 0,
            outcomeIndex := h.outcomeIndex.getD 0,
            outcome := if h.outcomeIndex.getD 0 = 0 then "YES" else "NO",
            position := zeroPositionDetails,
            total_pnl_all_markets := pnl,
            activity := mkActivityFields (env w).activityResp.toList
              (h.outcomeIndex.getD 0) })) ∧
    (∀ env h w, walletOf h = some w →
        (env w).positionsResp.toList.find?
            (fun p => p.outcomeIndex = some (h.outcomeIndex.getD 0)) = none →
        App.enrich_holder env h = none) := by
  refine ⟨?_, ?_, ?_⟩
  · intro positions oi hfind
    simp [calculate_position_details, hfind]
  · intro env h w hw hfind pnl hres
    have hcalc : calculate_position_details (env w).positionsResp.toList
        (h.outcomeIndex.getD 0) = zeroPositionDetails := by
      simp [calculate_position_details, hfind]
    simp only [enrich_holder_with_position, hw, hcalc, hres]
  · intro env h w hw hfind
    simp only [App.enrich_holder, hw, hfind]

def stubW8 : HolderStub := { proxyWallet := some "w8", outcomeIndex := some 0 }

/-- Witness for C8 (amended): with no matching position the detailed script
keeps the holder with the zero record, the streamlit app drops it. -/
theorem C8_witness :
    calculate_position_details ([] : List RawPosition) 0 = zeroPositionDetails ∧
    enrich_holder_with_position (fun _ => {}) stubW8 = .ok (.enriched
      { wallet := "w8", name := none, pseudonym := none, bio := none,
        shares_from_holders_api := 0, outcomeIndex := 0, outcome := "YES",
        position := zeroPositionDetails, total_pnl_all_markets := 0,
        activity := mkActivityFields [] 0 }) ∧
    App.enrich_holder (fun _ => {}) stubW8 = none := by
  refine ⟨C8_no_position_amended.1 [] 0 rfl, ?_,
    C8_no_position_amended.2.2 (fun _ => {}) stubW8 "w8" rfl rfl⟩
  exact C8_no_position_amended.2.1 (fun _ => {}) stubW8 "w8" rfl rfl 0 rfl

def stubC8 : HolderStub := { proxyWallet := some "w9", outcomeIndex := some 0 }

def envC8 : String → NetEnv := fun _ => { positionsResp := .ok [{ outcomeIndex := some 1 }] }

/-- C8 (counterexample): a holder whose wallet has positions but none for the
requested outcome side is dropped by the streamlit pipeline (`enrich_holder`
returns `None` and the collection loop skips it), contradicting the claim
that such a holder is included with an all-zero position. -/
theorem C8_cex :
    App.enrich_holder envC8 stubC8 = none ∧
    App.analysis_collect envC8 [stubC8] = [] ∧
    [stubC8].length ≠ (App.analysis_collect envC8 [stubC8]).length := by
  have he : App.enrich_holder envC8 stubC8 = none := by
    have hw : walletOf stubC8 = some "w9" := rfl
    have hfind : (envC8 "w9").positionsResp.toList.find?
        (fun p => p.outcomeIndex = some (stubC8.outcomeIndex.getD 0)) = none := rfl
    simp only [App.enrich_holder, hw, hfind]
  have hc : App.analysis_collect envC8 [stubC8] = [] := by
    simp only [App.analysis_collect, he]
  refine ⟨he, hc, ?_⟩
  rw [hc]
  decide

theorem scrapeAll777 :
    scrape_user_profit_from_profile (.resp 200 "Profit/Loss ALL $777.00") = some 777 := by
  have hp : pat1Search "Profit/Loss ALL $777.00".data =
      some ((none : Option Char), "777.00") := by decide
  have ha : amountVal "777.00" = 777 := by
    rw [amountVal_eq _ ['7', '7', '7'] ['0', '0'] (by decide)]
    have h1 : digitsToNat ['7', '7', '7'] = 777 := by decide
    have h2 : digitsToNat ['0', '0'] = 0 := by decide
    rw [h1, h2]; norm_num
  simp [scrape_user_profit_from_profile, scrapeProfileHtml, hp, ha]

/-- C1: the All-Time P&L resolver is a strict fallback chain: a value from
the structured profit API stage wins outright; the profile-page scrape is
consulted only when the API stage yielded no value; the derived-from-positions
computation (the sum of `current_value - initial_value` over all positions
plus the sum of reported `realizedPnl`) is used only when both earlier
stages yielded no value.  The streamlit `get_pnl` implements the same strict
order on its two stages (leaderboard API, then scrape). -/
theorem C1_fallback_chain (wallet : String) (e : NetEnv) :
    (∀ v, apiStage wallet e = .ok (some v) → resolve_all_time_pnl wallet e = .ok v) ∧
    (apiStage wallet e = .ok none →
      (∀ v, scrape_user_profit_from_profile e.profileResp = some v →
        resolve_all_time_pnl wallet e = .ok v) ∧
      (scrape_user_profit_from_profile e.profileResp = none →
        resolve_all_time_pnl wallet e = .ok (derivedPnl e.allPositionsResp.toList))) ∧
    (∀ positions : List RawPosition,
      derivedPnl positions =
        (positions.map (fun p => p.currentValue.getD 0 - p.initialValue.getD 0)).sum +
        (positions.map (fun p => p.realizedPnl.getD 0)).sum) ∧
    (∀ e' : NetEnv, ∀ v, App.fetch_profit_leaderboard e'.lbResp = some v →
        App.get_pnl e' = some v) ∧
    (∀ e' : NetEnv, App.fetch_profit_leaderboard e'.lbResp = none →
        App.get_pnl e' = App.scrape_pnl e'.profileResp) := by
  refine ⟨?_, ?_, ?_, ?_, ?_⟩
  · intro v h
    simp only [resolve_all_time_pnl, h]
  · intro h
    constructor
    · intro v hs
      simp only [resolve_all_time_pnl, h, hs]
    · intro hs
      simp only [resolve_all_time_pnl, h, hs]
  · intro positions
    cases positions with
    | nil => simp [derivedPnl]
    | cons p t => simp [derivedPnl]
  · intro e' v h
    simp only [App.get_pnl, h]
  · intro e' h
    simp only [App.get_pnl, h]

/-- Witness for C1: with every source failing, the first two stages yield no
value and the resolver lands on the derived fallback (0 for an empty
positions list). -/
theorem C1_witness : resolve_all_time_pnl "w" {} = .ok 0 := by
  have h := ((C1_fallback_chain "w" {}).2.1 rfl).2 rfl
  simpa [Fetched.toList, derivedPnl] using h

/-- Environment of C9's failing input: the first profit endpoint answers
HTTP 200 with the JSON body `{"amount": "N/A"}`, and the profile page would
have been scrapable (it shows `$777.00`). -/
def envC9 : NetEnv :=
  { statsEndpoints := [.resp 200 (some (.obj [("amount", .str "N/A")]))],
    profileResp := .resp 200 "Profit/Loss ALL $777.00" }

/-- C9 (code bug): on an unexpected response shape — a 200 profit response
whose `amount` field is the non-numeric string `"N/A"` — the resolver raises
`ValueError` out of `float(...)` (line 357 of the detailed script, not
guarded by any `try/except` inside the resolver) instead of degrading to
no-data, even though the next strategy (the profile scrape) had a value
available.  The claim that the resolver never raises to its caller is the
spec's stated intent; the code's unguarded conversion is the slip. -/
theorem C9_resolver_raises :
    resolve_all_time_pnl "0xabc" envC9 = .error .valueError ∧
    scrape_user_profit_from_profile envC9.profileResp = some 777 :=
  ⟨rfl, scrapeAll777⟩

/-- Environment family for C10: a single profit endpoint answering HTTP 200
with the given JSON dict; profile page and all-positions source free. -/
def mkStatsEnv (fields : List (String × JVal)) (prof : HttpText)
    (pos : Fetched RawPosition) : NetEnv :=
  { statsEndpoints := [.resp 200 (some (.obj fields))],
    profileResp := prof, allPositionsResp := pos }

/-- C10 (amended): a zero in the `amount` or `profit` field is skipped by the
truthiness `or`-chain, and when the remaining fields are absent the chain
yields `None`, so the resolver falls through to the scrape/derived fallbacks;
but because Python's `or` returns its last operand regardless of truthiness,
a response whose `pnl` field is exactly 0 (with `amount` and `profit`
absent) makes the chain yield 0, which passes the `is not None` test — the
API's genuine zero is returned and the resolver does not fall through. -/
theorem C10_zero_truthiness_amended (prof : HttpText) (pos : Fetched RawPosition)
    (w : String) :
    (resolve_all_time_pnl w (mkStatsEnv [("amount", .num 0)] prof pos) =
      .ok ((scrape_user_profit_from_profile prof).getD (derivedPnl pos.toList))) ∧
    (resolve_all_time_pnl w (mkStatsEnv [("profit", .num 0)] prof pos) =
      .ok ((scrape_user_profit_from_profile prof).getD (derivedPnl pos.toList))) ∧
    (resolve_all_time_pnl w (mkStatsEnv [("pnl", .num 0)] prof pos) = .ok 0) := by
  have hapiA : apiStage w (mkStatsEnv [("amount", .num 0)] prof pos) = .ok none := rfl
  have hapiP : apiStage w (mkStatsEnv [("profit", .num 0)] prof pos) = .ok none := rfl
  have hprofA : (mkStatsEnv [("amount", .num 0)] prof pos).profileResp = prof := rfl
  have hprofP : (mkStatsEnv [("profit", .num 0)] prof pos).profileResp = prof := rfl
  have hposA : (mkStatsEnv [("amount", .num 0)] prof pos).allPositionsResp = pos := rfl
  have hposP : (mkStatsEnv [("profit", .num 0)] prof pos).allPositionsResp = pos := rfl
  refine ⟨?_, ?_, rfl⟩
  · cases hscr : scrape_user_profit_from_profile prof with
    | some v => simp only [resolve_all_time_pnl, hapiA, hprofA, hscr, Option.getD_some]
    | none => simp only [resolve_all_time_pnl, hapiA, hprofA, hposA, hscr, Option.getD_none]
  · cases hscr : scrape_user_profit_from_profile prof with
    | some v => simp only [resolve_all_time_pnl, hapiP, hprofP, hscr, Option.getD_some]
    | none => simp only [resolve_all_time_pnl, hapiP, hprofP, hposP, hscr, Option.getD_none]

/-- C10 (counterexample): with the API answering `{"pnl": 0}` the resolver
returns 0 from the API stage and does *not* fall through — the scrape would
have produced 777, but the result is 0.  So "a numeric profit field whose
value is exactly 0 is treated as absent" is false for the `pnl` field. -/
theorem C10_cex :
    resolve_all_time_pnl "w"
      (mkStatsEnv [("pnl", .num 0)] (.resp 200 "Profit/Loss ALL $777.00") (.ok [])) =
      .ok 0 ∧
    scrape_user_profit_from_profile
      (mkStatsEnv [("pnl", .num 0)] (.resp 200 "Profit/Loss ALL $777.00")
        (.ok [])).profileResp = some 777 ∧
    ((0 : ℚ) ≠ 777) :=
  ⟨rfl, scrapeAll777, by norm_num⟩

/-- C7 (amended): both enrichment loops are order-preserving.  In the
detailed script every stub — wallet-less ones included, which come back as
their raw, unenriched dict — yields exactly one output record, so the output
length always equals the input length.  In the streamlit app the output is
the order-preserving `filterMap` of `enrich_holder`, whose length shortfall
equals the number of stubs on which `enrich_holder` returns `None`, which
happens exactly when the stub lacks a wallet *or* when its wallet has no
position matching the outcome side. -/
theorem C7_amended :
    (∀ env hs out, process_enrich_loop env hs = .ok out →
        out.length = hs.length ∧
        ∀ (i : ℕ) (h : HolderStub), hs[i]? = some h → ∃ r, out[i]? = some r ∧
          enrich_holder_with_position env h = .ok r) ∧
    (∀ env hs, App.analysis_collect env hs = hs.filterMap (App.enrich_holder env)) ∧
    (∀ env hs, (App.analysis_collect env hs).length =
        hs.length - hs.countP (fun h => (App.enrich_holder env h).isNone)) ∧
    (∀ env h, App.enrich_holder env h = none ↔
        walletOf h = none ∨ ∃ w, walletOf h = some w ∧
          (env w).positionsResp.toList.find?
            (fun p => p.outcomeIndex = some (h.outcomeIndex.getD 0)) = none) := by
  refine ⟨?_, ?_, ?_, ?_⟩
  · intro env hs
    induction hs with
    | nil =>
      intro out hout
      cases hout
      exact ⟨rfl, by intro i h hh; simp at hh⟩
    | cons a t ih =>
      intro out hout
      simp only [process_enrich_loop] at hout
      cases he : enrich_holder_with_position env a with
      | error er => rw [he] at hout; cases hout
      | ok r =>
        rw [he] at hout
        cases hl : process_enrich_loop env t with
        | error er => rw [hl] at hout; cases hout
        | ok rest =>
          rw [hl] at hout
          cases hout
          obtain ⟨hlen, hidx⟩ := ih rest hl
          refine ⟨by simp [hlen], ?_⟩
          intro i h hh
          cases i with
          | zero =>
            simp only [List.getElem?_cons_zero, Option.some_inj] at hh
            subst hh
            exact ⟨r, by simp, he⟩
          | succ n =>
            simp only [List.getElem?_cons_succ] at hh ⊢
            exact hidx n h hh
  · intro env hs
    induction hs with
    | nil => rfl
    | cons a t ih =>
      simp only [App.analysis_collect, List.filterMap_cons]
      cases he : App.enrich_holder env a with
      | some r => simp only [he, ih]
      | none => simp only [he, ih]
  · intro env hs
    induction hs with
    | nil => rfl
    | cons a t ih =>
      have hct : t.countP (fun h => (App.enrich_holder env h).isNone) ≤ t.length :=
        List.countP_le_length _
      cases he : App.enrich_holder env a with
      | some r =>
        simp [App.analysis_collect, he, List.countP_cons, ih]
        omega
      | none =>
        simp [App.analysis_collect, he, List.countP_cons, ih]
  · intro env h
    cases hw : walletOf h with
    | none => simp [App.enrich_holder, hw]
    | some w =>
      cases hfind : (env w).positionsResp.toList.find?
          (fun p => p.outcomeIndex = some (h.outcomeIndex.getD 0)) with
      | none =>
        simp only [App.enrich_holder, hw, hfind]
        exact iff_of_true trivial (Or.inr ⟨w, rfl, hfind⟩)
      | some p =>
        simp only [App.enrich_holder, hw, hfind]
        constructor
        · intro hco
          exact Option.noConfusion hco
        · rintro (hnone | ⟨w2, hw2, hfind2⟩)
          · cases hnone
          · cases hw2
            rw [hfind] at hfind2
            cases hfind2

def wstub : HolderStub := {}

def envC7 : String → NetEnv := fun _ => {}

/-- C7 (counterexample): a single wallet-less stub.  The detailed pipeline
returns it (raw) instead of excluding it, so the output length is 1 while
the claim predicts input length minus the wallet-less count, i.e. 0. -/
theorem C7_cex :
    process_enrich_loop envC7 [wstub] = .ok [.raw wstub] ∧
    [wstub].countP (fun h => (walletOf h).isNone) = 1 ∧
    [DRow.raw wstub].length ≠
      [wstub].length - [wstub].countP (fun h => (walletOf h).isNone) := by
  refine ⟨rfl, rfl, ?_⟩
  decide

/-- Witness for C7 (amended) at a concrete one-stub input. -/
theorem C7_witness :
    [DRow.raw wstub].length = [wstub].length ∧
    (App.analysis_collect envC7 [wstub]).length =
      [wstub].length - [wstub].countP (fun h => (App.enrich_holder envC7 h).isNone) :=
  ⟨(C7_amended.1 envC7 [wstub] [.raw wstub] rfl).1, C7_amended.2.2.1 envC7 [wstub]⟩

/-- C4 (amended): the streamlit average (`pandas` mean of the `All-Time
P&L` column) excludes an unknown value from both numerator and denominator —
appending an unknown holder leaves the mean unchanged; the detailed script's
average instead sums `h.get('total_pnl_all_markets', 0)` over *all* rows and
divides by the total row count, so a row carrying no P&L value contributes 0
to the numerator and 1 to the denominator. -/
theorem C4_amended :
    (∀ l : List (Option ℚ), App.meanKnown (l ++ [none]) = App.meanKnown l) ∧
    (∀ (rows : List DRow) (h : HolderStub),
        avg_total_pnl (rows ++ [.raw h]) =
          (rows.map total_pnl_or_zero).sum / ((rows.length : ℚ) + 1)) := by
  constructor
  · intro l
    simp [App.meanKnown, List.filterMap_append]
  · intro rows h
    rw [avg_total_pnl, if_neg (by simp)]
    simp [total_pnl_or_zero]

def stubPnl (w : String) : HolderStub := { proxyWallet := some w, outcomeIndex := some 0 }

def envC4 : String → NetEnv := fun w =>
  match w with
  | "wa" => { statsEndpoints := [.resp 200 (some (.obj [("amount", .num 10)]))] }
  | "wb" => { statsEndpoints := [.resp 200 (some (.obj [("amount", .num 20)]))] }
  | _ => {}

def rowPnl (w : String) (q : ℚ) : DRow :=
  DRow.enriched
    { wallet := w, name := none, pseudonym := none, bio := none,
      shares_from_holders_api := 0, outcomeIndex := 0, outcome := "YES",
      position := zeroPositionDetails, total_pnl_all_markets := q,
      activity := {} }

/-- C4 (counterexample): three holders of which one ("wc", all of its
sources failing) is unknown.  The detailed pipeline coerces the unknown to 0
(the last-resort fallback) and averages over all three rows, giving 10; the
claim demands the mean over the two known values only, 15. -/
theorem C4_cex :
    process_enrich_loop envC4 [stubPnl "wa", stubPnl "wb", stubPnl "wc"] =
      .ok [rowPnl "wa" 10, rowPnl "wb" 20, rowPnl "wc" 0] ∧
    resolve_all_time_pnl "wc" (envC4 "wc") = .ok 0 ∧
    avg_total_pnl [rowPnl "wa" 10, rowPnl "wb" 20, rowPnl "wc" 0] = 10 ∧
    App.meanKnown [some 10, some 20, none] = some 15 ∧
    ((10 : ℚ) ≠ 15) := by
  refine ⟨rfl, rfl, ?_, ?_, by norm_num⟩
  · norm_num [avg_total_pnl, total_pnl_or_zero, rowPnl]
  · have hfm : ([some (10 : ℚ), some 20, none].filterMap id) = [10, 20] := rfl
    simp only [App.meanKnown, hfm]
    norm_num

/-- C6: the percent P&L equals derived P&L divided by `initial_value` times
100 when `initial_value` is positive, and is exactly 0 when `initial_value`
is 0; the guarded conditional (and the total `ℚ` model) produces a defined
rational for every input, never a division-by-zero error, NaN or
infinity. -/
theorem C6_percent_pnl (positions : List RawPosition) (outcome_index : ℤ) :
    ((calculate_position_details positions outcome_index).initial_value > 0 →
      (calculate_position_details positions outcome_index).pnl_percent =
        (calculate_position_details positions outcome_index).pnl_cash /
          (calculate_position_details positions outcome_index).initial_value * 100) ∧
    ((calculate_position_details positions outcome_index).initial_value = 0 →
      (calculate_position_details positions outcome_index).pnl_percent = 0) := by
  cases hfind : positions.find? (fun p => p.outcomeIndex = some outcome_index) with
  | none => simp [calculate_position_details, hfind, zeroPositionDetails]
  | some p =>
    constructor
    · intro hpos
      simp only [calculate_position_details, hfind] at hpos ⊢
      rw [if_pos hpos]
    · intro h0
      simp only [calculate_position_details, hfind] at h0 ⊢
      rw [h0]
      norm_num

/-- Position with a positive cost basis, for the C6 witness. -/
def posC6 : RawPosition :=
  { outcomeIndex := some 0, initialValue := some 2, currentValue := some 5 }

/-- Witness for C6: the positive-basis case on `posC6` and the zero-basis
case on the empty positions list. -/
theorem C6_witness :
    (calculate_position_details [posC6] 0).pnl_percent =
      (calculate_position_details [posC6] 0).pnl_cash /
        (calculate_position_details [posC6] 0).initial_value * 100 ∧
    (calculate_position_details [] 0).pnl_percent = 0 := by
  constructor
  · exact (C6_percent_pnl [posC6] 0).1 (by norm_num [calculate_position_details, posC6])
  · exact (C6_percent_pnl [] 0).2 (by norm_num [calculate_position_details, zeroPositionDetails])
